import Mathlib

/-!
Verification of the concurrency core of `src/engine.rs`: the fixed-timestep
game loop, the async image-load bridge, and the keyboard input buffer.

Timestamps and durations are modelled as exact rationals (the source uses
`f64`/`f32`; the arithmetic of the accumulator algorithm is idealized over ℚ).
Callback-driven effects are modelled as explicit state transitions and as
event traces listing the side effects a function performs, in source order.
-/

namespace Engine

/-- The constant `FRAME_SIZE: f32 = 1.0 / 60.0 * 1000.0` (engine.rs line 77). -/
def FRAME_SIZE : ℚ := 1 / 60 * 1000

/-- The `GameLoop` struct (engine.rs lines 78-83): `last_frame` is the time of
the previous requested frame, `accumulated_delta` the time accumulated since
the last simulation steps were consumed. -/
structure GameLoop where
  last_frame : ℚ
  accumulated_delta : ℚ
deriving DecidableEq

/-- The catch-up loop of the frame closure (engine.rs lines 119-122):

```rust
while game_loop.accumulated_delta > FRAME_SIZE {
    game.update(&keystate);
    game_loop.accumulated_delta -= FRAME_SIZE;
}
```

Given the accumulator value at loop entry, returns the number of `update`
calls executed and the accumulator value at loop exit. -/
def catchUp (acc : ℚ) : ℕ × ℚ :=
  if h : FRAME_SIZE < acc then
    let r := catchUp (acc - FRAME_SIZE)
    (r.1 + 1, r.2)
  else
    (0, acc)
termination_by (⌈acc / FRAME_SIZE⌉).toNat
decreasing_by
  have hT : (0 : ℚ) < FRAME_SIZE := by norm_num [FRAME_SIZE]
  have h1 : (1 : ℚ) < acc / FRAME_SIZE := (one_lt_div hT).mpr h
  have h2 : (1 : ℤ) < ⌈acc / FRAME_SIZE⌉ := Int.lt_ceil.mpr (by exact_mod_cast h1)
  have h3 : (acc - FRAME_SIZE) / FRAME_SIZE = acc / FRAME_SIZE - 1 := by
    field_simp
  rw [h3, Int.ceil_sub_one]
  omega

/-- One invocation of the per-frame closure (engine.rs lines 116-126),
restricted to its effect on the `GameLoop` state: accumulate the delta
`perf - last_frame`, run the catch-up loop, then overwrite `last_frame`
with `perf`.  Returns the new state and the number of `update` calls. -/
def frameStep (gl : GameLoop) (perf : ℚ) : GameLoop × ℕ :=
  let acc := gl.accumulated_delta + (perf - gl.last_frame)
  let r := catchUp acc
  (⟨perf, r.2⟩, r.1)

theorem catchUp_20 : catchUp 20 = (1, 10 / 3) := by
  rw [catchUp]
  norm_num [FRAME_SIZE]
  rw [catchUp]
  norm_num [FRAME_SIZE]

theorem FRAME_SIZE_pos : (0 : ℚ) < FRAME_SIZE := by norm_num [FRAME_SIZE]

theorem catchUp_count_zero (acc : ℚ) (h : (catchUp acc).1 = 0) : acc ≤ FRAME_SIZE := by
  rw [catchUp] at h
  split at h
  · simp at h
  · exact le_of_not_lt (by assumption)

theorem catchUp_spec (n : ℕ) : ∀ acc : ℚ, (catchUp acc).1 = n →
    (catchUp acc).2 = acc - n * FRAME_SIZE ∧ (catchUp acc).2 ≤ FRAME_SIZE ∧
    (0 < n → 0 < (catchUp acc).2) := by
  induction n with
  | zero =>
    intro acc h
    have hle : acc ≤ FRAME_SIZE := catchUp_count_zero acc h
    rw [catchUp]
    have hc : ¬ FRAME_SIZE < acc := not_lt.mpr hle
    simp [hc, hle]
  | succ m ih =>
    intro acc h
    by_cases hc : FRAME_SIZE < acc
    · have hu : catchUp acc = ((catchUp (acc - FRAME_SIZE)).1 + 1, (catchUp (acc - FRAME_SIZE)).2) := by
        rw [catchUp]
        simp [hc]
      rw [hu] at h ⊢
      have hm : (catchUp (acc - FRAME_SIZE)).1 = m := by omega
      obtain ⟨he, hle, hpos⟩ := ih (acc - FRAME_SIZE) hm
      refine ⟨?_, hle, fun _ => ?_⟩
      · rw [he]
        push_cast
        ring
      · rcases Nat.eq_zero_or_pos m with hm0 | hm0
        · rw [he, hm0]
          simpa using sub_pos.mpr hc
        · exact hpos hm0
    · rw [catchUp] at h
      simp [hc] at h

theorem catchUp_final_nonneg (acc : ℚ) (h : 0 ≤ acc) : 0 ≤ (catchUp acc).2 := by
  obtain ⟨he, _, hpos⟩ := catchUp_spec (catchUp acc).1 acc rfl
  rcases Nat.eq_zero_or_pos (catchUp acc).1 with h0 | h0
  · rw [he, h0]
    simpa using h
  · exact le_of_lt (hpos h0)

theorem catchUp_count_closed (acc : ℚ) (h : 0 ≤ acc) :
    (catchUp acc).1 = (⌈acc / FRAME_SIZE⌉ - 1).toNat := by
  obtain ⟨he, hle, hpos⟩ := catchUp_spec (catchUp acc).1 acc rfl
  rcases Nat.eq_zero_or_pos (catchUp acc).1 with h0 | h0
  · have hle' : acc ≤ FRAME_SIZE := catchUp_count_zero acc h0
    have hd : acc / FRAME_SIZE ≤ 1 := (div_le_one FRAME_SIZE_pos).mpr hle'
    have hc : ⌈acc / FRAME_SIZE⌉ ≤ 1 := Int.ceil_le.mpr (by exact_mod_cast hd)
    omega
  · have hfinal := hpos h0
    set n : ℕ := (catchUp acc).1 with hn
    have h1 : (n : ℚ) * FRAME_SIZE < acc := by
      have := he ▸ hfinal
      linarith
    have h2 : acc ≤ (n + 1 : ℚ) * FRAME_SIZE := by
      have := he ▸ hle
      linarith [this]
    have hd1 : (n : ℚ) < acc / FRAME_SIZE := (lt_div_iff FRAME_SIZE_pos).mpr h1
    have hd2 : acc / FRAME_SIZE ≤ (n + 1 : ℚ) := (div_le_iff FRAME_SIZE_pos).mpr (by linarith)
    have hceil : ⌈acc / FRAME_SIZE⌉ = (n : ℤ) + 1 := by
      rw [Int.ceil_eq_iff]
      constructor
      · push_cast
        simpa using hd1
      · push_cast
        simpa using hd2
    omega

/-- The successive values taken by `accumulated_delta` inside the catch-up
loop (engine.rs lines 119-122): one entry per executed iteration, recording
the value right after the `accumulated_delta -= FRAME_SIZE` of that
iteration. -/
def catchUpTrace (acc : ℚ) : List ℚ :=
  if h : FRAME_SIZE < acc then
    (acc - FRAME_SIZE) :: catchUpTrace (acc - FRAME_SIZE)
  else
    []
termination_by (⌈acc / FRAME_SIZE⌉).toNat
decreasing_by
  have hT : (0 : ℚ) < FRAME_SIZE := by norm_num [FRAME_SIZE]
  have h1 : (1 : ℚ) < acc / FRAME_SIZE := (one_lt_div hT).mpr h
  have h2 : (1 : ℤ) < ⌈acc / FRAME_SIZE⌉ := Int.lt_ceil.mpr (by exact_mod_cast h1)
  have h3 : (acc - FRAME_SIZE) / FRAME_SIZE = acc / FRAME_SIZE - 1 := by
    field_simp
  rw [h3, Int.ceil_sub_one]
  omega

theorem catchUpTrace_pos (n : ℕ) : ∀ acc : ℚ, (catchUp acc).1 = n →
    ∀ x ∈ catchUpTrace acc, 0 < x := by
  induction n with
  | zero =>
    intro acc h
    have hle : acc ≤ FRAME_SIZE := catchUp_count_zero acc h
    rw [catchUpTrace]
    simp [not_lt.mpr hle]
  | succ m ih =>
    intro acc h
    by_cases hc : FRAME_SIZE < acc
    · rw [catchUpTrace]
      simp only [hc, dif_pos]
      intro x hx
      rcases List.mem_cons.mp hx with hx | hx
      · rw [hx]
        exact sub_pos.mpr hc
      · have hu : catchUp acc = ((catchUp (acc - FRAME_SIZE)).1 + 1, (catchUp (acc - FRAME_SIZE)).2) := by
          rw [catchUp]
          simp [hc]
        rw [hu] at h
        simp at h
        exact ih (acc - FRAME_SIZE) h x hx
    · rw [catchUp] at h
      simp [hc] at h

/-- The values `accumulated_delta` holds during one presentation frame: the
value right after `accumulated_delta += (perf - last_frame)` (engine.rs
line 118), followed by the value after each loop iteration's subtraction. -/
def frameAccTrace (gl : GameLoop) (perf : ℚ) : List ℚ :=
  let acc := gl.accumulated_delta + (perf - gl.last_frame)
  acc :: catchUpTrace acc

/-- Runs the per-frame closure once for each timestamp in the list. -/
def runFrames (gl : GameLoop) : List ℚ → GameLoop
  | [] => gl
  | t :: ts => runFrames (frameStep gl t).1 ts

/-- All values `accumulated_delta` holds, in order, across a sequence of
presentation frames with the given timestamps. -/
def runTraces (gl : GameLoop) : List ℚ → List ℚ
  | [] => []
  | t :: ts => frameAccTrace gl t ++ runTraces (frameStep gl t).1 ts

/-- The observable actions performed by one invocation of the per-frame
closure (engine.rs lines 116-126), in source order: `process_input`, the
delta accumulation, one `update` per catch-up iteration, the
`last_frame = perf` write, the `draw`, and the `request_animation_frame`
re-registration. -/
inductive FrameEvent where
  | drain
  | accumulate
  | update
  | set_last_frame
  | draw
  | raf
deriving DecidableEq

def frameEvents (gl : GameLoop) (perf : ℚ) : List FrameEvent :=
  let acc := gl.accumulated_delta + (perf - gl.last_frame)
  FrameEvent.drain :: FrameEvent.accumulate ::
    (List.replicate (catchUp acc).1 FrameEvent.update ++
      [FrameEvent.set_last_frame, FrameEvent.draw, FrameEvent.raf])

theorem catchUp_FRAME_SIZE : catchUp FRAME_SIZE = (0, FRAME_SIZE) := by
  rw [catchUp]
  simp

/-- C1 counterexample: with `last_frame = 0`, `accumulated_delta = 0` and the
next frame at `perf = FRAME_SIZE` (a strictly increasing timestamp), the
accumulated total equals the tick size exactly; the loop condition is the
strict `accumulated_delta > FRAME_SIZE`, so zero steps run while
`floor(total / tick) = 1`, and the resulting accumulator equals `FRAME_SIZE`,
which is not strictly less than `FRAME_SIZE`. -/
theorem step_count_floor_counterexample :
    (frameStep ⟨0, 0⟩ FRAME_SIZE).2
        ≠ (⌊((0 : ℚ) + (FRAME_SIZE - 0)) / FRAME_SIZE⌋).toNat ∧
    ¬ (frameStep ⟨0, 0⟩ FRAME_SIZE).1.accumulated_delta < FRAME_SIZE := by
  have hf : frameStep ⟨0, 0⟩ FRAME_SIZE = (⟨FRAME_SIZE, FRAME_SIZE⟩, 0) := by
    simp [frameStep, catchUp_FRAME_SIZE]
  rw [hf]
  constructor
  · have hd : ((0 : ℚ) + (FRAME_SIZE - 0)) / FRAME_SIZE = 1 := by
      rw [zero_add, sub_zero, div_self (ne_of_gt FRAME_SIZE_pos)]
    rw [hd]
    simp
  · exact lt_irrefl _

/-- C1 (amended): for a non-negative accumulated total
`S = accumulated_delta_before + (perf - last_frame)`, the number of
simulation steps executed during the frame equals `max 0 (⌈S / tick⌉ - 1)`
(this agrees with `⌊S / tick⌋` except when `S` is an exact positive multiple
of the tick size, where it is one less, because the loop condition is the
strict `>`), and after the catch-up loop the accumulator equals
`S - steps * tick` and satisfies `0 ≤ accumulated_delta ≤ tick` (the upper
bound is attained exactly when `S` is a positive multiple of the tick). -/
theorem frame_step_count_and_accumulator_bounds (gl : GameLoop) (perf : ℚ)
    (h : 0 ≤ gl.accumulated_delta + (perf - gl.last_frame)) :
    (frameStep gl perf).2
        = (⌈(gl.accumulated_delta + (perf - gl.last_frame)) / FRAME_SIZE⌉ - 1).toNat ∧
    (frameStep gl perf).1.accumulated_delta
        = gl.accumulated_delta + (perf - gl.last_frame)
            - (frameStep gl perf).2 * FRAME_SIZE ∧
    0 ≤ (frameStep gl perf).1.accumulated_delta ∧
    (frameStep gl perf).1.accumulated_delta ≤ FRAME_SIZE := by
  obtain ⟨he, hle, _⟩ :=
    catchUp_spec (catchUp (gl.accumulated_delta + (perf - gl.last_frame))).1
      (gl.accumulated_delta + (perf - gl.last_frame)) rfl
  have h2 : (frameStep gl perf).2
      = (catchUp (gl.accumulated_delta + (perf - gl.last_frame))).1 := rfl
  have h1 : (frameStep gl perf).1.accumulated_delta
      = (catchUp (gl.accumulated_delta + (perf - gl.last_frame))).2 := rfl
  refine ⟨?_, ?_, ?_, ?_⟩
  · rw [h2, catchUp_count_closed _ h]
  · rw [h1, h2, he]
  · rw [h1]
    exact catchUp_final_nonneg _ h
  · rw [h1]
    exact hle

/-- Witness for `frame_step_count_and_accumulator_bounds` at the initial
state and a frame at `perf = 20` ms. -/
theorem frame_step_count_and_accumulator_bounds_witness :
    (0 ≤ (GameLoop.mk 0 0).accumulated_delta + (20 - (GameLoop.mk 0 0).last_frame)) ∧
    ((frameStep (GameLoop.mk 0 0) 20).2
        = (⌈((GameLoop.mk 0 0).accumulated_delta + (20 - (GameLoop.mk 0 0).last_frame)) / FRAME_SIZE⌉ - 1).toNat ∧
    (frameStep (GameLoop.mk 0 0) 20).1.accumulated_delta
        = (GameLoop.mk 0 0).accumulated_delta + (20 - (GameLoop.mk 0 0).last_frame)
            - (frameStep (GameLoop.mk 0 0) 20).2 * FRAME_SIZE ∧
    0 ≤ (frameStep (GameLoop.mk 0 0) 20).1.accumulated_delta ∧
    (frameStep (GameLoop.mk 0 0) 20).1.accumulated_delta ≤ FRAME_SIZE) :=
  ⟨by norm_num, frame_step_count_and_accumulator_bounds ⟨0, 0⟩ 20 (by norm_num)⟩

/-- C10: if the accumulated total after the `+=` equals the tick size
exactly, the strict loop condition `accumulated_delta > FRAME_SIZE` is
false, so zero simulation steps run this frame and the whole tick-sized
amount carries over unchanged into the next frame. -/
theorem exact_tick_total_runs_zero_steps (gl : GameLoop) (perf : ℚ)
    (h : gl.accumulated_delta + (perf - gl.last_frame) = FRAME_SIZE) :
    (frameStep gl perf).2 = 0 ∧
    (frameStep gl perf).1.accumulated_delta = FRAME_SIZE := by
  simp [frameStep, h, catchUp_FRAME_SIZE]

/-- Witness for `exact_tick_total_runs_zero_steps` starting from the initial
state with the next frame exactly one tick later. -/
theorem exact_tick_total_runs_zero_steps_witness :
    ((GameLoop.mk 0 0).accumulated_delta + (FRAME_SIZE - (GameLoop.mk 0 0).last_frame) = FRAME_SIZE) ∧
    ((frameStep (GameLoop.mk 0 0) FRAME_SIZE).2 = 0 ∧
     (frameStep (GameLoop.mk 0 0) FRAME_SIZE).1.accumulated_delta = FRAME_SIZE) :=
  ⟨by norm_num, exact_tick_total_runs_zero_steps ⟨0, 0⟩ FRAME_SIZE (by norm_num)⟩

/-- C6: given monotonically non-decreasing frame timestamps and a
non-negative starting accumulator, `accumulated_delta >= 0` holds at every
point of every frame: right after the per-frame `+=` and after every
`-= FRAME_SIZE` of every catch-up iteration. -/
theorem accumulator_nonneg_at_every_point (gl : GameLoop) (ts : List ℚ)
    (hacc : 0 ≤ gl.accumulated_delta) (hts : List.Chain (· ≤ ·) gl.last_frame ts) :
    ∀ x ∈ runTraces gl ts, 0 ≤ x := by
  induction ts generalizing gl with
  | nil =>
    simp [runTraces]
  | cons t ts ih =>
    rw [List.chain_cons] at hts
    obtain ⟨hle, hchain⟩ := hts
    have hS : 0 ≤ gl.accumulated_delta + (t - gl.last_frame) := by linarith
    intro x hx
    rw [runTraces] at hx
    rcases List.mem_append.mp hx with hx | hx
    · rw [frameAccTrace] at hx
      rcases List.mem_cons.mp hx with hx | hx
      · rw [hx]
        exact hS
      · exact le_of_lt
          (catchUpTrace_pos (catchUp (gl.accumulated_delta + (t - gl.last_frame))).1 _ rfl x hx)
    · have h1 : (frameStep gl t).1.accumulated_delta
          = (catchUp (gl.accumulated_delta + (t - gl.last_frame))).2 := rfl
      have h2 : (frameStep gl t).1.last_frame = t := rfl
      exact ih (frameStep gl t).1 (h1 ▸ catchUp_final_nonneg _ hS) (h2 ▸ hchain) x hx

/-- Witness for `accumulator_nonneg_at_every_point` on the spec's end-to-end
frame sequence `[10, 20, 40]` from the initial state. -/
theorem accumulator_nonneg_at_every_point_witness :
    (0 ≤ (GameLoop.mk 0 0).accumulated_delta) ∧
    List.Chain (· ≤ ·) (GameLoop.mk 0 0).last_frame [10, 20, 40] ∧
    ∀ x ∈ runTraces (GameLoop.mk 0 0) [10, 20, 40], 0 ≤ x :=
  ⟨by norm_num, by norm_num [List.chain_cons],
    accumulator_nonneg_at_every_point ⟨0, 0⟩ [10, 20, 40] (by norm_num)
      (by norm_num [List.chain_cons])⟩

/-- C9: every invocation of the per-frame closure performs exactly one
`request_animation_frame` re-registration. -/
theorem frame_reregisters_exactly_once (gl : GameLoop) (perf : ℚ) :
    (frameEvents gl perf).count FrameEvent.raf = 1 := by
  simp [frameEvents, List.count_append, List.count_replicate, List.count_cons]

theorem frameTail_update_lt (n : ℕ) : ∀ k : ℕ,
    (List.replicate n FrameEvent.update ++
      [FrameEvent.set_last_frame, FrameEvent.draw, FrameEvent.raf])[k]?
        = some FrameEvent.update → k < n := by
  induction n with
  | zero =>
    intro k h
    rcases k with _ | _ | _ | k <;> simp at h
  | succ n ih =>
    intro k h
    rcases k with _ | k
    · omega
    · rw [List.replicate_succ, List.cons_append, List.getElem?_cons_succ] at h
      exact Nat.succ_lt_succ (ih k h)

theorem frameTail_set_eq (n : ℕ) : ∀ k : ℕ,
    (List.replicate n FrameEvent.update ++
      [FrameEvent.set_last_frame, FrameEvent.draw, FrameEvent.raf])[k]?
        = some FrameEvent.set_last_frame → k = n := by
  induction n with
  | zero =>
    intro k h
    rcases k with _ | _ | _ | k <;> simp at h
    rfl
  | succ n ih =>
    intro k h
    rcases k with _ | k
    · rw [List.replicate_succ, List.cons_append, List.getElem?_cons_zero] at h
      simp at h
    · rw [List.replicate_succ, List.cons_append, List.getElem?_cons_succ] at h
      rw [ih k h]

theorem frameTail_draw_at (n : ℕ) :
    (List.replicate n FrameEvent.update ++
      [FrameEvent.set_last_frame, FrameEvent.draw, FrameEvent.raf])[n + 1]?
        = some FrameEvent.draw := by
  induction n with
  | zero => rfl
  | succ n ih =>
    rw [List.replicate_succ, List.cons_append]
    rw [show n + 1 + 1 = (n + 1) + 1 from rfl, List.getElem?_cons_succ]
    exact ih

/-- C5 (amended): `last_frame` is overwritten with the frame's timestamp
after the delta is accumulated and after every simulation step of the frame
has run (not before them), and immediately before the frame's single draw. -/
theorem last_frame_written_after_updates_before_draw (gl : GameLoop) (perf : ℚ)
    (i j : ℕ)
    (hi : (frameEvents gl perf)[i]? = some FrameEvent.update)
    (hj : (frameEvents gl perf)[j]? = some FrameEvent.set_last_frame) :
    i < j ∧ (frameEvents gl perf)[j + 1]? = some FrameEvent.draw := by
  have hfe : frameEvents gl perf = FrameEvent.drain :: FrameEvent.accumulate ::
      (List.replicate (catchUp (gl.accumulated_delta + (perf - gl.last_frame))).1
          FrameEvent.update ++
        [FrameEvent.set_last_frame, FrameEvent.draw, FrameEvent.raf]) := rfl
  rw [hfe] at hi hj ⊢
  rcases i with _ | _ | i
  · simp at hi
  · simp at hi
  · rcases j with _ | _ | j
    · simp at hj
    · simp at hj
    · rw [List.getElem?_cons_succ, List.getElem?_cons_succ] at hi hj
      have hi' := frameTail_update_lt _ i hi
      have hj' := frameTail_set_eq _ j hj
      constructor
      · omega
      · rw [show j + 1 + 1 + 1 = (j + 1 + 1) + 1 from rfl, List.getElem?_cons_succ,
          List.getElem?_cons_succ, hj']
        exact frameTail_draw_at _

theorem frameEvents_init_20 :
    frameEvents ⟨0, 0⟩ 20 = [FrameEvent.drain, FrameEvent.accumulate, FrameEvent.update,
      FrameEvent.set_last_frame, FrameEvent.draw, FrameEvent.raf] := by
  have h20 : (GameLoop.mk 0 0).accumulated_delta + (20 - (GameLoop.mk 0 0).last_frame)
      = (20 : ℚ) := by norm_num
  simp [frameEvents, h20, catchUp_20, List.replicate]

/-- C5 counterexample: from the initial state `last_frame = 0`,
`accumulated_delta = 0`, the frame at `perf = 20` executes one `update`
(at trace position 2) before the `last_frame = perf` write (at trace
position 3), so the write does not happen before the frame's simulation
steps. -/
theorem last_frame_write_order_counterexample :
    ¬ ∀ i j : ℕ, (frameEvents ⟨0, 0⟩ 20)[i]? = some FrameEvent.set_last_frame →
        (frameEvents ⟨0, 0⟩ 20)[j]? = some FrameEvent.update → i < j := by
  intro hclaim
  have h := hclaim 3 2 (by rw [frameEvents_init_20]; rfl) (by rw [frameEvents_init_20]; rfl)
  omega

/-- Witness for `last_frame_written_after_updates_before_draw` on the frame
at `perf = 20` from the initial state. -/
theorem last_frame_written_after_updates_before_draw_witness :
    ((frameEvents ⟨0, 0⟩ 20)[2]? = some FrameEvent.update ∧
     (frameEvents ⟨0, 0⟩ 20)[3]? = some FrameEvent.set_last_frame) ∧
    (2 < 3 ∧ (frameEvents ⟨0, 0⟩ 20)[3 + 1]? = some FrameEvent.draw) :=
  ⟨⟨by rw [frameEvents_init_20]; rfl, by rw [frameEvents_init_20]; rfl⟩,
    last_frame_written_after_updates_before_draw ⟨0, 0⟩ 20 2 3
      (by rw [frameEvents_init_20]; rfl) (by rw [frameEvents_init_20]; rfl)⟩

/-! Async Resource Bridge (`load_image`, engine.rs lines 41-69) -/

/-- State shared by the two image-load callbacks: the completion slot
`Rc<Mutex<Option<Sender>>>` (engine.rs line 47), modelled by whether the
oneshot sender is still in the slot, together with the list of messages that
have been sent on the completion channel so far. -/
structure BridgeState where
  slot : Option Unit
  sent : List (Except String Unit)

/-- The bridge state right after `load_image` creates the channel and wraps
the sender: the slot holds the live sender and nothing has been sent. -/
def initBridge : BridgeState := ⟨some (), []⟩

/-- The success callback (engine.rs lines 50-54): lock the mutex, `take` the
sender out of the slot, and if one was there, send `Ok(())`; otherwise do
nothing. -/
def success_callback (st : BridgeState) : BridgeState :=
  match st.slot with
  | some _ => ⟨none, st.sent ++ [Except.ok ()]⟩
  | none => st

/-- The error callback (engine.rs lines 56-60): lock the mutex, `take` the
sender out of the slot, and if one was there, send the descriptive failure;
otherwise do nothing. -/
def error_callback (err : String) (st : BridgeState) : BridgeState :=
  match st.slot with
  | some _ => ⟨none, st.sent ++ [Except.error ("Error loading image " ++ err)]⟩
  | none => st

/-- A callback invocation: the image element fired either `onload` or
`onerror` (with its error payload). -/
inductive LoadCallback where
  | success
  | failure (err : String)
deriving DecidableEq

/-- The outcome the given callback would send if it found the sender. -/
def callbackOutcome : LoadCallback → Except String Unit
  | .success => Except.ok ()
  | .failure err => Except.error ("Error loading image " ++ err)

def fireCallback (st : BridgeState) : LoadCallback → BridgeState
  | .success => success_callback st
  | .failure err => error_callback err st

/-- Runs an arbitrary interleaving (sequence) of callback invocations
against the shared bridge state. -/
def runCallbacks (st : BridgeState) (cs : List LoadCallback) : BridgeState :=
  cs.foldl fireCallback st

theorem fireCallback_empty_slot (st : BridgeState) (hs : st.slot = none)
    (c : LoadCallback) : fireCallback st c = st := by
  cases c <;> simp [fireCallback, success_callback, error_callback, hs]

theorem fireCallback_full_slot (st : BridgeState) (hs : st.slot = some ())
    (c : LoadCallback) :
    fireCallback st c = ⟨none, st.sent ++ [callbackOutcome c]⟩ := by
  cases c <;> simp [fireCallback, success_callback, error_callback, callbackOutcome, hs]

theorem runCallbacks_empty_slot (st : BridgeState) (hs : st.slot = none) :
    ∀ cs : List LoadCallback, runCallbacks st cs = st := by
  intro cs
  induction cs with
  | nil => rfl
  | cons c cs ih =>
    rw [runCallbacks, List.foldl_cons, fireCallback_empty_slot st hs c]
    exact ih

/-- C2: for every interleaving of success/failure callback invocations of a
single load (including both firing, in either order, any number of times),
exactly one outcome is ever sent on the completion channel: the first
callback takes the sender out of the slot and sends its outcome, and every
later callback finds the slot empty and performs no action. -/
theorem bridge_resolves_exactly_once (c : LoadCallback) (cs : List LoadCallback) :
    (runCallbacks initBridge (c :: cs)).sent = [callbackOutcome c] ∧
    (runCallbacks initBridge (c :: cs)).slot = none := by
  have h1 : fireCallback initBridge c = ⟨none, [callbackOutcome c]⟩ := by
    rw [fireCallback_full_slot initBridge rfl c]
    rfl
  have h2 : runCallbacks initBridge (c :: cs)
      = runCallbacks (⟨none, [callbackOutcome c]⟩ : BridgeState) cs := by
    rw [runCallbacks, List.foldl_cons, h1]
    rfl
  rw [h2, runCallbacks_empty_slot _ rfl cs]
  exact ⟨rfl, rfl⟩

/-- Awaiting the oneshot receiver (`complete_rx.await`): if the channel
holds a message it is yielded, and if both senders were dropped without
sending the receiver resolves to a `Canceled` error. -/
def awaitReceiver (channel : Option (Except String Unit)) :
    Except String (Except String Unit) :=
  match channel with
  | none => Except.error "oneshot canceled"
  | some msg => Except.ok msg

/-- The tail of `load_image` (engine.rs line 66): `complete_rx.await??` —
the outer `?` propagates a broken-channel error, the inner `?` propagates a
load failure sent by the error callback. -/
def load_image_result (channel : Option (Except String Unit)) : Except String Unit :=
  match awaitReceiver channel with
  | Except.error e => Except.error e
  | Except.ok (Except.error e) => Except.error e
  | Except.ok (Except.ok ()) => Except.ok ()

/-- C4: if the sender side of the completion channel is dropped without
sending (neither callback ever sent), the caller awaiting `load_image`'s
receiver observes a failure result, not a success. -/
theorem broken_channel_surfaces_failure :
    load_image_result none = Except.error "oneshot canceled" ∧
    ∀ u : Unit, load_image_result none ≠ Except.ok u := by
  exact ⟨rfl, fun u h => by simp [load_image_result, awaitReceiver] at h⟩

/-- The side effects `load_image` performs on the image element, in source
order (engine.rs lines 42-66): create the element, register the `onload`
callback, register the `onerror` callback, set the source (which triggers
the external load), then await the receiver. -/
inductive LoadImageAction where
  | new_image
  | register_onload
  | register_onerror
  | set_src
  | await_receiver
deriving DecidableEq

def load_image_actions : List LoadImageAction :=
  [LoadImageAction.new_image, LoadImageAction.register_onload,
    LoadImageAction.register_onerror, LoadImageAction.set_src,
    LoadImageAction.await_receiver]

/-- C7: `load_image` triggers the external load (`set_src`) only after both
the success callback (`onload`) and the failure callback (`onerror`) have
been registered. -/
theorem set_src_after_both_callbacks_registered :
    List.indexOf LoadImageAction.register_onload load_image_actions
        < List.indexOf LoadImageAction.set_src load_image_actions ∧
    List.indexOf LoadImageAction.register_onerror load_image_actions
        < List.indexOf LoadImageAction.set_src load_image_actions ∧
    LoadImageAction.set_src ∈ load_image_actions := by
  decide

/-! Input Event Buffer (`prepare_input`, `KeyState`, `process_input`,
engine.rs lines 236-303) -/

/-- The opaque raw keyboard event payload (`web_sys::KeyboardEvent`),
carrying the key's code string. -/
structure KeyboardEvent where
  code : String
deriving DecidableEq

/-- A queued key press event (engine.rs lines 236-239). -/
inductive KeyPress where
  | KeyUp (evt : KeyboardEvent)
  | KeyDown (evt : KeyboardEvent)
deriving DecidableEq

/-- The `KeyState` struct (engine.rs lines 266-289): a map from key code to the most
recent "down" event for that key; presence means "currently held". -/
structure KeyState where
  pressed_keys : String → Option KeyboardEvent

def KeyState.new : KeyState := ⟨fun _ => none⟩

def KeyState.is_pressed (s : KeyState) (code : String) : Bool :=
  (s.pressed_keys code).isSome

/-- Insertion `pressed_keys.insert(code.into(), event)`. -/
def KeyState.set_pressed (s : KeyState) (code : String) (event : KeyboardEvent) : KeyState :=
  ⟨fun c => if c = code then some event else s.pressed_keys c⟩

/-- Removal `pressed_keys.remove(code.into())`. -/
def KeyState.set_released (s : KeyState) (code : String) : KeyState :=
  ⟨fun c => if c = code then none else s.pressed_keys c⟩

/-- The body of the drain loop of `process_input` (engine.rs lines 297-300):
fold one received event into the key state. -/
def applyKeyEvent (state : KeyState) : KeyPress → KeyState
  | .KeyUp evt => state.set_released evt.code
  | .KeyDown evt => state.set_pressed evt.code evt

/-- The drain `process_input` (engine.rs lines 291-303): drain every currently-queued
event in arrival order, folding each into the key state; draining stops at
the first "queue empty" or "sender closed" signal, so exactly the queued
prefix `events` is consumed. -/
def process_input (state : KeyState) (events : List KeyPress) : KeyState :=
  events.foldl applyKeyEvent state

/-- The key code an event is about. -/
def keyOf : KeyPress → String
  | .KeyUp evt => evt.code
  | .KeyDown evt => evt.code

/-- Whether an event is a "down" event. -/
def isDownEvent : KeyPress → Bool
  | .KeyDown _ => true
  | .KeyUp _ => false

/-- C3: for every sequence of events for a single key `k` queued between two
drains, the key state after the drain reflects exactly the last event in
arrival order: `is_pressed k` is true iff that last event was a "down"
(each down inserts/overwrites the entry, each up removes it). -/
theorem drain_last_event_wins (s : KeyState) (l : List KeyPress) (e : KeyPress)
    (k : String) (hk : ∀ ev ∈ l ++ [e], keyOf ev = k) :
    (process_input s (l ++ [e])).is_pressed k = isDownEvent e := by
  have hlast : keyOf e = k := hk e (List.mem_append_right l (List.mem_singleton_self e))
  rw [process_input, List.foldl_append, List.foldl_cons, List.foldl_nil]
  cases e with
  | KeyDown evt =>
    have hc : evt.code = k := hlast
    simp [applyKeyEvent, KeyState.set_pressed, KeyState.is_pressed, isDownEvent, hc]
  | KeyUp evt =>
    have hc : evt.code = k := hlast
    simp [applyKeyEvent, KeyState.set_released, KeyState.is_pressed, isDownEvent, hc]

/-- Witness for `drain_last_event_wins`: the spec's end-to-end scenario — a
"down" for key "A" immediately followed by an "up" for key "A", both queued
before the drain, leaves `is_pressed "A"` false. -/
theorem drain_last_event_wins_witness :
    (∀ ev ∈ [KeyPress.KeyDown ⟨"A"⟩] ++ [KeyPress.KeyUp ⟨"A"⟩], keyOf ev = "A") ∧
    (process_input KeyState.new
        ([KeyPress.KeyDown ⟨"A"⟩] ++ [KeyPress.KeyUp ⟨"A"⟩])).is_pressed "A"
      = isDownEvent (KeyPress.KeyUp ⟨"A"⟩) :=
  ⟨by decide, drain_last_event_wins KeyState.new [KeyPress.KeyDown ⟨"A"⟩]
    (KeyPress.KeyUp ⟨"A"⟩) "A" (by decide)⟩

/-! Startup sequence (`GameLoop::start`, engine.rs lines 86-135) -/

/-- The results of the fallible collaborator calls `GameLoop::start` makes,
in source order: `prepare_input()` (keyboard registration), the game's
`initialize().await`, `browser::now()` (the clock read),
`browser::context()` (drawing-surface acquisition), and the initial
`request_animation_frame` registration. -/
structure StartCollaborators where
  prepare_input_result : Except String Unit
  init_game_result : Except String Unit
  now_result : Except String ℚ
  context_result : Except String Unit
  raf_result : Except String Unit

/-- The startup sequence `GameLoop::start` (engine.rs lines 86-135), modelled on its fallible
startup steps: each `?` propagates the first failure; the returned flag
records whether the frame loop was armed (the initial
`request_animation_frame` call succeeded), i.e. whether any frame callback
can ever run. -/
def GameLoop.start (env : StartCollaborators) : Except String Unit × Bool :=
  match env.prepare_input_result with
  | Except.error e => (Except.error e, false)
  | Except.ok _ =>
    match env.init_game_result with
    | Except.error e => (Except.error e, false)
    | Except.ok _ =>
      match env.now_result with
      | Except.error e => (Except.error e, false)
      | Except.ok _ =>
        match env.context_result with
        | Except.error e => (Except.error e, false)
        | Except.ok _ =>
          match env.raf_result with
          | Except.error e => (Except.error e, false)
          | Except.ok _ => (Except.ok (), true)

/-- Whether an `Except` value is a failure. -/
def isFailure : Except String Unit → Bool
  | Except.error _ => true
  | Except.ok _ => false

/-- C8: if input registration, the game's `initialize`, the clock read, or
drawing-surface acquisition fails, `GameLoop::start` propagates a failure
to its caller and the frame loop is never armed, so no update, draw, or
frame re-registration ever occurs. -/
theorem startup_failure_aborts_before_arming (env : StartCollaborators)
    (h : isFailure env.prepare_input_result = true ∨
         isFailure env.init_game_result = true ∨
         (∃ e, env.now_result = Except.error e) ∨
         isFailure env.context_result = true) :
    isFailure (GameLoop.start env).1 = true ∧ (GameLoop.start env).2 = false := by
  obtain ⟨p, i, n, c, r⟩ := env
  rcases p with pe | pu
  · simp [GameLoop.start, isFailure]
  · rcases i with ie | iu
    · simp [GameLoop.start, isFailure]
    · rcases n with ne | nu
      · simp [GameLoop.start, isFailure]
      · rcases c with ce | cu
        · simp [GameLoop.start, isFailure]
        · simp [isFailure] at h

/-- Witness for `startup_failure_aborts_before_arming`: a failing
`initialize` with every other collaborator succeeding. -/
theorem startup_failure_aborts_before_arming_witness :
    (isFailure (StartCollaborators.mk (Except.ok ()) (Except.error "init failed")
          (Except.ok 0) (Except.ok ()) (Except.ok ())).prepare_input_result = true ∨
     isFailure (StartCollaborators.mk (Except.ok ()) (Except.error "init failed")
          (Except.ok 0) (Except.ok ()) (Except.ok ())).init_game_result = true ∨
     (∃ e, (StartCollaborators.mk (Except.ok ()) (Except.error "init failed")
          (Except.ok 0) (Except.ok ()) (Except.ok ())).now_result = Except.error e) ∨
     isFailure (StartCollaborators.mk (Except.ok ()) (Except.error "init failed")
          (Except.ok 0) (Except.ok ()) (Except.ok ())).context_result = true) ∧
    (isFailure (GameLoop.start (StartCollaborators.mk (Except.ok ())
          (Except.error "init failed") (Except.ok 0) (Except.ok ()) (Except.ok ()))).1 = true ∧
     (GameLoop.start (StartCollaborators.mk (Except.ok ()) (Except.error "init failed")
          (Except.ok 0) (Except.ok ()) (Except.ok ()))).2 = false) :=
  ⟨Or.inr (Or.inl rfl),
    startup_failure_aborts_before_arming
      (StartCollaborators.mk (Except.ok ()) (Except.error "init failed")
        (Except.ok 0) (Except.ok ()) (Except.ok ()))
      (Or.inr (Or.inl rfl))⟩

end Engine
